import Mathlib

/-!
Shallow embedding of the `interviewAlarm` state-diff-and-notify core:
`src/database/db.py` (class `Database`) and `src/monitor/scheduler.py`
(class `MonitorScheduler`).

The persistent SQLite state is modelled as explicit lists of rows.  The
`time_slots` relation is modelled by its logical columns
`(tracked_url_id, start_time, end_time, is_notified)`; the surrogate
autoincrement `id` and the wall-clock `detected_at` column are omitted
(no operation of the core reads them back except to echo them, and the
spec describes the persisted layout as "logical, not bit-exact").
Timestamps are opaque strings compared only for equality, exactly as the
Python code treats them.
-/

/-- A fetched slot as produced by the scraper and consumed by
`save_time_slots` / `get_new_slots`: the Python dict
`{'start_time': ..., 'end_time': ...}`. -/
structure SlotInput where
  start_time : String
  end_time : String
deriving DecidableEq, Repr

/-- A row of the `time_slots` table (logical columns). -/
structure TimeSlotRow where
  tracked_url_id : Nat
  start_time : String
  end_time : String
  is_notified : Bool
deriving DecidableEq, Repr

/-- A row of the `tracked_urls` table (logical columns; `created_at`
omitted, it is wall-clock data never compared by the core). -/
structure TrackedUrlRow where
  id : Nat
  user_id : Int
  url : String
  company_name : String
deriving DecidableEq, Repr

/-- The SQLite database state: the two tables plus the autoincrement
counter for `tracked_urls.id`. -/
structure Database where
  tracked_urls : List TrackedUrlRow
  next_id : Nat
  time_slots : List TimeSlotRow
deriving DecidableEq, Repr

/-- `Database.init_db` on a fresh file: two empty tables; SQLite
`AUTOINCREMENT` hands out row ids starting from 1. -/
def Database.empty : Database := ⟨[], 1, []⟩

/-- `Database.add_tracked_url`: `INSERT INTO tracked_urls` under the
`UNIQUE(user_id, url)` constraint; an `sqlite3.IntegrityError` on a
duplicate pair is caught and turned into `None`. -/
def Database.add_tracked_url (db : Database) (user_id : Int) (url : String)
    (company_name : String) : Database × Option Nat :=
  if db.tracked_urls.any (fun r => r.user_id == user_id && r.url == url) then
    (db, none)
  else
    ({ db with
        tracked_urls := db.tracked_urls ++ [⟨db.next_id, user_id, url, company_name⟩],
        next_id := db.next_id + 1 },
     some db.next_id)

/-- `Database.remove_tracked_url`: `DELETE FROM tracked_urls WHERE
user_id = ? AND url = ?`, returning `rowcount > 0`.  The `time_slots`
table is NOT touched: the schema declares `ON DELETE CASCADE`, but
`get_connection` is a bare `sqlite3.connect` and never executes
`PRAGMA foreign_keys = ON`, and SQLite leaves foreign-key enforcement
off by default, so the cascade clause is inert at runtime. -/
def Database.remove_tracked_url (db : Database) (user_id : Int) (url : String) :
    Database × Bool :=
  let remaining := db.tracked_urls.filter
    (fun r => !(r.user_id == user_id && r.url == url))
  ({ db with tracked_urls := remaining },
   decide (remaining.length < db.tracked_urls.length))

/-- One `INSERT OR REPLACE INTO time_slots` statement: SQLite deletes
every row conflicting on the `UNIQUE(tracked_url_id, start_time)`
constraint and inserts the fresh row. -/
def insertOrReplaceSlot (tracked_url_id : Nat) (is_notified : Bool)
    (ts : List TimeSlotRow) (slot : SlotInput) : List TimeSlotRow :=
  ts.filter (fun r =>
      !(r.tracked_url_id == tracked_url_id && r.start_time == slot.start_time))
    ++ [⟨tracked_url_id, slot.start_time, slot.end_time, is_notified⟩]

/-- `Database.save_time_slots`: one `INSERT OR REPLACE` per input slot,
in list order; returns the number of slots written. -/
def Database.save_time_slots (db : Database) (tracked_url_id : Nat)
    (slots : List SlotInput) (is_notified : Bool) : Database × Nat :=
  ({ db with
      time_slots := slots.foldl (insertOrReplaceSlot tracked_url_id is_notified) db.time_slots },
   slots.length)

/-- `Database.get_time_slots`: `SELECT ... WHERE tracked_url_id = ?
ORDER BY start_time ASC`. -/
def Database.get_time_slots (db : Database) (tracked_url_id : Nat) : List TimeSlotRow :=
  ((db.time_slots.filter (fun r => r.tracked_url_id == tracked_url_id)).mergeSort
    (fun a b => a.start_time ≤ b.start_time))

/-- `Database.get_new_slots`: build the set of stored
`(start_time, end_time)` pairs for the resource and keep the fetched
slots whose pair is absent. -/
def Database.get_new_slots (db : Database) (tracked_url_id : Nat)
    (current_slots : List SlotInput) : List SlotInput :=
  let db_slot_tuples :=
    (db.get_time_slots tracked_url_id).map (fun s => (s.start_time, s.end_time))
  current_slots.filter (fun s => !(db_slot_tuples.contains (s.start_time, s.end_time)))

/-- `Database.mark_slots_notified`: early return on an empty list,
otherwise `UPDATE time_slots SET is_notified = 1 WHERE tracked_url_id = ?
AND start_time IN (...)`. -/
def Database.mark_slots_notified (db : Database) (tracked_url_id : Nat)
    (start_times : List String) : Database :=
  if start_times.isEmpty then db
  else
    { db with
        time_slots := db.time_slots.map (fun r =>
          if r.tracked_url_id == tracked_url_id && start_times.contains r.start_time then
            { r with is_notified := true }
          else r) }

/-! ## The poll cycle (`src/monitor/scheduler.py`)

`MonitorScheduler.check_url` scrapes one tracked URL and diffs, persists,
notifies and marks.  The two external collaborators are modelled as
inputs to the step: the scraper outcome is an `Except` value
(`scrape_needle_page` either returns the slot list or raises), and the
notification outcome is a `Bool`.  `send_new_slot_notification` catches
`TelegramError` and every other `Exception` internally and returns
normally either way, so the `Bool` only shows up in the recorded
notification event, never in the resulting database state. -/

/-- Failure of `scrape_needle_page`: a `NeedleScraperError`, or any
other exception — `check_url` catches both and leaves the state
untouched. -/
inductive ScrapeError where
  | needle (msg : String)
  | other (msg : String)
deriving DecidableEq, Repr

/-- One call of `send_new_slot_notification`: the payload handed to
`bot.send_message`, plus whether the send succeeded (`delivered = false`
means a `TelegramError`/exception was caught and logged). -/
structure NotifyEvent where
  user_id : Int
  company_name : String
  url : String
  slots : List SlotInput
  delivered : Bool
deriving DecidableEq, Repr

/-- `MonitorScheduler.check_url` for one tracked resource.  On a
scraper error: log and return (no state change, no notification).
Otherwise: `get_new_slots`; if empty, do nothing; if non-empty,
`save_time_slots(..., is_notified=False)`, call the notifier (whose
failures are swallowed inside `send_new_slot_notification`), then
`mark_slots_notified` on the start times just notified. -/
def check_url (db : Database) (t : TrackedUrlRow)
    (scraped : Except ScrapeError (List SlotInput)) (notify_ok : Bool) :
    Database × List NotifyEvent :=
  match scraped with
  | .error _ => (db, [])
  | .ok current_slots =>
    let new_slots := db.get_new_slots t.id current_slots
    if new_slots.isEmpty then (db, [])
    else
      let db1 := (db.save_time_slots t.id new_slots false).1
      let ev : NotifyEvent := ⟨t.user_id, t.company_name, t.url, new_slots, notify_ok⟩
      let db2 := db1.mark_slots_notified t.id (new_slots.map (fun s => s.start_time))
      (db2, [ev])

/-- `MonitorScheduler.check_all_urls` restricted to one sweep over a
given working set: each tracked resource is checked in listing order,
and any exception from a single check is caught and the loop continues
(`check_url` itself already swallows every failure, so each step is
total here).  `scraped` and `notify_ok` give each resource its scraper
and notifier outcome for this sweep. -/
def check_all_urls (db : Database) (tracked_urls : List TrackedUrlRow)
    (scraped : TrackedUrlRow → Except ScrapeError (List SlotInput))
    (notify_ok : TrackedUrlRow → Bool) : Database × List NotifyEvent :=
  tracked_urls.foldl
    (fun acc t =>
      let r := check_url acc.1 t (scraped t) (notify_ok t)
      (r.1, acc.2 ++ r.2))
    (db, [])

/-! ## Basic characterizations -/

/-- The `UNIQUE(tracked_url_id, start_time)` row key, as a Bool test
against a list of input slots: does any input slot collide with row `r`
for resource `i`? -/
def slotKeyHit (i : Nat) (slots : List SlotInput) (r : TimeSlotRow) : Bool :=
  slots.any (fun s => r.tracked_url_id == i && r.start_time == s.start_time)

/-- Is the value pair `(st, et)` present among the stored slots of
resource `i`?  This is the membership test `get_new_slots` performs via
its `db_slot_tuples` set. -/
def storedPair (db : Database) (i : Nat) (st et : String) : Bool :=
  db.time_slots.any
    (fun r => r.tracked_url_id == i && r.start_time == st && r.end_time == et)

/-- The schema invariant `UNIQUE(tracked_url_id, start_time)` on the
`time_slots` table. -/
def Database.slotsKeyUnique (db : Database) : Prop :=
  db.time_slots.Pairwise
    (fun a c => ¬(a.tracked_url_id = c.tracked_url_id ∧ a.start_time = c.start_time))

theorem storedPair_iff {db : Database} {i : Nat} {st et : String} :
    storedPair db i st et = true ↔
      ∃ r ∈ db.time_slots,
        r.tracked_url_id = i ∧ r.start_time = st ∧ r.end_time = et := by
  simp [storedPair, List.any_eq_true, and_assoc]

theorem mem_get_time_slots {db : Database} {i : Nat} {r : TimeSlotRow} :
    r ∈ db.get_time_slots i ↔ r ∈ db.time_slots ∧ r.tracked_url_id = i := by
  simp [Database.get_time_slots, List.mem_mergeSort, List.mem_filter]

/-- `get_new_slots` keeps exactly the fetched slots whose
`(start_time, end_time)` pair is absent from the stored rows of the
resource; the `ORDER BY` sort and tuple-set plumbing are irrelevant to
the result. -/
theorem get_new_slots_eq_filter (db : Database) (i : Nat) (cur : List SlotInput) :
    db.get_new_slots i cur
      = cur.filter (fun s => !storedPair db i s.start_time s.end_time) := by
  unfold Database.get_new_slots
  apply List.filter_congr
  intro s _
  apply congrArg
  rw [Bool.eq_iff_iff]
  simp [List.contains, List.elem_iff, mem_get_time_slots, storedPair_iff,
    Prod.ext_iff, and_assoc]

/-! ## How `save_time_slots` rewrites the table -/

theorem insertOrReplaceSlot_append (i : Nat) (b : Bool) (xs ys : List TimeSlotRow)
    (s : SlotInput) :
    insertOrReplaceSlot i b (xs ++ ys) s
      = xs.filter (fun r => !(r.tracked_url_id == i && r.start_time == s.start_time))
          ++ insertOrReplaceSlot i b ys s := by
  simp [insertOrReplaceSlot, List.filter_append, List.append_assoc]

/-- Folding the per-slot `INSERT OR REPLACE` over `xs ++ ys` leaves in
front exactly the rows of `xs` whose key collides with no input slot,
and processes `ys` independently behind them. -/
theorem foldl_insertOrReplace_append (i : Nat) (b : Bool) :
    ∀ (slots : List SlotInput) (xs ys : List TimeSlotRow),
      slots.foldl (insertOrReplaceSlot i b) (xs ++ ys)
        = xs.filter (fun r => !slotKeyHit i slots r)
            ++ slots.foldl (insertOrReplaceSlot i b) ys := by
  intro slots
  induction slots with
  | nil => intro xs ys; simp [slotKeyHit]
  | cons s l ih =>
    intro xs ys
    simp only [List.foldl_cons, insertOrReplaceSlot_append]
    rw [ih, List.filter_filter]
    congr 1
    apply List.filter_congr
    intro r _
    cases h1 : (r.tracked_url_id == i && r.start_time == s.start_time) <;>
      simp [slotKeyHit, h1, List.any_cons]

/-- Every table the fold produces splits into the untouched old rows
and the canonical block built from scratch. -/
theorem foldl_insertOrReplace_eq (i : Nat) (b : Bool) (ts : List TimeSlotRow)
    (slots : List SlotInput) :
    slots.foldl (insertOrReplaceSlot i b) ts
      = ts.filter (fun r => !slotKeyHit i slots r)
          ++ slots.foldl (insertOrReplaceSlot i b) [] := by
  have h := foldl_insertOrReplace_append i b slots ts []
  simpa using h

/-- Every row the fold can produce is either an untouched initial row or
the image of one of the input slots. -/
theorem mem_foldl_insertOrReplace {i : Nat} {b : Bool} :
    ∀ {slots : List SlotInput} {init : List TimeSlotRow} {r : TimeSlotRow},
      r ∈ slots.foldl (insertOrReplaceSlot i b) init →
      r ∈ init ∨ ∃ s ∈ slots, r = ⟨i, s.start_time, s.end_time, b⟩ := by
  intro slots
  induction slots with
  | nil => intro init r h; exact Or.inl h
  | cons s l ih =>
    intro init r h
    rcases ih h with hin | ⟨s', hs', rfl⟩
    · rcases List.mem_append.mp hin with hf | hx
      · exact Or.inl (List.mem_filter.mp hf).1
      · right
        refine ⟨s, List.mem_cons_self s l, ?_⟩
        simpa using hx
    · exact Or.inr ⟨s', List.mem_cons_of_mem s hs', rfl⟩

/-- With pairwise-distinct `start_time`s, the canonical block is just
the input list mapped to fresh rows. -/
theorem foldl_insertOrReplace_nil_eq_map (i : Nat) (b : Bool) :
    ∀ {slots : List SlotInput},
      slots.Pairwise (fun a c => a.start_time ≠ c.start_time) →
      slots.foldl (insertOrReplaceSlot i b) []
        = slots.map (fun s => ⟨i, s.start_time, s.end_time, b⟩) := by
  intro slots
  induction slots with
  | nil => intro _; simp
  | cons s l ih =>
    intro h
    obtain ⟨hhead, htail⟩ := List.pairwise_cons.mp h
    have hstep : insertOrReplaceSlot i b [] s
        = [⟨i, s.start_time, s.end_time, b⟩] := by
      simp [insertOrReplaceSlot]
    simp only [List.foldl_cons, hstep, List.map_cons]
    rw [foldl_insertOrReplace_eq i b _ l, ih htail]
    have hkeep : slotKeyHit i l (⟨i, s.start_time, s.end_time, b⟩ : TimeSlotRow) = false := by
      simp only [slotKeyHit, List.any_eq_false]
      intro x hx
      simp [hhead x hx]
    simp [List.filter_cons, hkeep]

/-- One `INSERT OR REPLACE` keeps a row with key `(i, st)` and notified
flag `b` present: either the old row survives the delete, or the freshly
inserted row carries the same key (all inserts of one `save_time_slots`
call use the same flag `b`). -/
theorem key_exists_insertOrReplace {i : Nat} {b : Bool} {ts : List TimeSlotRow}
    {st : String} (s : SlotInput)
    (h : ∃ r ∈ ts, r.tracked_url_id = i ∧ r.start_time = st ∧ r.is_notified = b) :
    ∃ r ∈ insertOrReplaceSlot i b ts s,
      r.tracked_url_id = i ∧ r.start_time = st ∧ r.is_notified = b := by
  obtain ⟨r, hr, hid, hst, hb⟩ := h
  by_cases hcol : st = s.start_time
  · refine ⟨⟨i, s.start_time, s.end_time, b⟩, ?_, rfl, hcol.symm, rfl⟩
    simp [insertOrReplaceSlot]
  · refine ⟨r, ?_, hid, hst, hb⟩
    apply List.mem_append_left
    apply List.mem_filter.mpr
    refine ⟨hr, ?_⟩
    simp [hst, hcol]

theorem key_exists_foldl {i : Nat} {b : Bool} {st : String} :
    ∀ (slots : List SlotInput) (init : List TimeSlotRow),
      (∃ r ∈ init, r.tracked_url_id = i ∧ r.start_time = st ∧ r.is_notified = b) →
      ∃ r ∈ slots.foldl (insertOrReplaceSlot i b) init,
        r.tracked_url_id = i ∧ r.start_time = st ∧ r.is_notified = b := by
  intro slots
  induction slots with
  | nil => intro init h; exact h
  | cons s l ih =>
    intro init h
    exact ih _ (key_exists_insertOrReplace s h)

/-- After `save_time_slots`, each input slot's start time is present as
a row key for the resource, carrying the flag the call was given. -/
theorem exists_key_after_save {i : Nat} {b : Bool} :
    ∀ (slots : List SlotInput) (init : List TimeSlotRow),
      ∀ s ∈ slots,
        ∃ r ∈ slots.foldl (insertOrReplaceSlot i b) init,
          r.tracked_url_id = i ∧ r.start_time = s.start_time ∧ r.is_notified = b := by
  intro slots
  induction slots with
  | nil => intro init s hs; cases hs
  | cons a l ih =>
    intro init s hs
    rcases List.mem_cons.mp hs with rfl | hs'
    · apply key_exists_foldl l
      exact ⟨⟨i, s.start_time, s.end_time, b⟩, by simp [insertOrReplaceSlot], rfl, rfl, rfl⟩
    · exact ih _ s hs'

/-- `mark_slots_notified` only flips `is_notified`: the key columns and
`end_time` of every row survive it. -/
theorem exists_row_mark {db : Database} {i : Nat} {sts : List String}
    {j : Nat} {st et : String}
    (h : ∃ r ∈ db.time_slots, r.tracked_url_id = j ∧ r.start_time = st ∧ r.end_time = et) :
    ∃ r ∈ (db.mark_slots_notified i sts).time_slots,
      r.tracked_url_id = j ∧ r.start_time = st ∧ r.end_time = et := by
  obtain ⟨r, hr, hid, hst, het⟩ := h
  unfold Database.mark_slots_notified
  split
  · exact ⟨r, hr, hid, hst, het⟩
  · refine ⟨(fun r : TimeSlotRow =>
        if r.tracked_url_id == i && sts.contains r.start_time then
          { r with is_notified := true }
        else r) r,
      List.mem_map_of_mem _ hr, ?_, ?_, ?_⟩ <;>
      · beta_reduce
        split <;> simp [hid, hst, het]

/-- One `INSERT OR REPLACE` preserves the
`UNIQUE(tracked_url_id, start_time)` invariant: the conflicting rows are
deleted before the fresh row is appended. -/
theorem insertOrReplaceSlot_unique {i : Nat} {b : Bool} {ts : List TimeSlotRow}
    (s : SlotInput)
    (h : ts.Pairwise
      (fun a c => ¬(a.tracked_url_id = c.tracked_url_id ∧ a.start_time = c.start_time))) :
    (insertOrReplaceSlot i b ts s).Pairwise
      (fun a c => ¬(a.tracked_url_id = c.tracked_url_id ∧ a.start_time = c.start_time)) := by
  unfold insertOrReplaceSlot
  apply List.pairwise_append.mpr
  refine ⟨h.filter _, List.pairwise_singleton _ _, ?_⟩
  intro a ha c hc
  have hpa := (List.mem_filter.mp ha).2
  have hc1 : c = ⟨i, s.start_time, s.end_time, b⟩ := by simpa using hc
  subst hc1
  simp only [Bool.not_eq_eq_eq_not, Bool.not_true, Bool.and_eq_false_imp] at hpa
  rintro ⟨hid, hst⟩
  rcases Bool.not_eq_true _ ▸ hpa with _
  have := hpa
  simp [hid, hst] at this

theorem foldl_insertOrReplace_unique {i : Nat} {b : Bool} :
    ∀ (slots : List SlotInput) (init : List TimeSlotRow),
      init.Pairwise
        (fun a c => ¬(a.tracked_url_id = c.tracked_url_id ∧ a.start_time = c.start_time)) →
      (slots.foldl (insertOrReplaceSlot i b) init).Pairwise
        (fun a c => ¬(a.tracked_url_id = c.tracked_url_id ∧ a.start_time = c.start_time)) := by
  intro slots
  induction slots with
  | nil => intro init h; exact h
  | cons s l ih => intro init h; exact ih _ (insertOrReplaceSlot_unique s h)

/-- `mark_slots_notified` sets `is_notified = true` on a row whose key
is listed. -/
theorem mark_sets_notified {db : Database} {i : Nat} {sts : List String} {st : String}
    (hmem : st ∈ sts)
    (h : ∃ r ∈ db.time_slots, r.tracked_url_id = i ∧ r.start_time = st) :
    ∃ r ∈ (db.mark_slots_notified i sts).time_slots,
      r.tracked_url_id = i ∧ r.start_time = st ∧ r.is_notified = true := by
  obtain ⟨r, hr, hid, hst⟩ := h
  unfold Database.mark_slots_notified
  split
  · next hempty =>
    rw [List.isEmpty_iff.mp hempty] at hmem
    cases hmem
  · have hc : (r.tracked_url_id == i && sts.contains r.start_time) = true := by
      simp [hid, hst, hmem]
    refine ⟨{ r with is_notified := true }, ?_, hid, hst, rfl⟩
    show _ ∈ List.map _ db.time_slots
    have hmap := List.mem_map_of_mem
      (fun r : TimeSlotRow =>
        if r.tracked_url_id == i && sts.contains r.start_time then
          { r with is_notified := true }
        else r) hr
    simpa [hid, hst, hmem] using hmap

/-! ## Claims -/

/-- C1: `get_new_slots` returns exactly the fetched slots whose
`(start_time, end_time)` pair is absent from the resource's stored
slots; equal `start_time` with a different `end_time` is detected, and a
fetch repeating a stored pair exactly yields nothing. -/
theorem get_new_slots_full_pair_diff :
    (∀ (db : Database) (i : Nat) (cur : List SlotInput),
        db.get_new_slots i cur
          = cur.filter (fun s => !storedPair db i s.start_time s.end_time))
    ∧ (∀ (db : Database) (i : Nat) (cur : List SlotInput) (s : SlotInput),
        s ∈ db.get_new_slots i cur ↔
          s ∈ cur ∧
            ¬∃ r ∈ db.time_slots,
              r.tracked_url_id = i ∧ r.start_time = s.start_time ∧ r.end_time = s.end_time)
    ∧ (Database.mk [] 1 [⟨1, "T1", "E1", true⟩]).get_new_slots 1 [⟨"T1", "E2"⟩]
        = [⟨"T1", "E2"⟩]
    ∧ (Database.mk [] 1 [⟨1, "T1", "E1", true⟩]).get_new_slots 1 [⟨"T1", "E1"⟩] = [] := by
  refine ⟨get_new_slots_eq_filter, ?_, ?_, ?_⟩
  · intro db i cur s
    rw [get_new_slots_eq_filter, List.mem_filter]
    constructor
    · rintro ⟨hc, hp⟩
      refine ⟨hc, ?_⟩
      intro hex
      rw [Bool.not_eq_eq_eq_not, Bool.not_true] at hp
      rw [storedPair_iff.mpr hex] at hp
      cases hp
    · rintro ⟨hc, hnex⟩
      refine ⟨hc, ?_⟩
      cases hsp : storedPair db i s.start_time s.end_time
      · rfl
      · exact absurd (storedPair_iff.mp hsp) hnex
  · rw [get_new_slots_eq_filter]; decide
  · rw [get_new_slots_eq_filter]; decide

/-- C9: when the diff is empty, the sweep step for that resource writes
nothing and emits no notification. -/
theorem check_url_empty_diff_no_writes (db : Database) (t : TrackedUrlRow)
    (cur : List SlotInput) (ok : Bool)
    (h : db.get_new_slots t.id cur = []) :
    check_url db t (Except.ok cur) ok = (db, []) := by
  simp [check_url, h]

/-- Witness for `check_url_empty_diff_no_writes`: a stored pair
re-fetched exactly produces an empty diff and the state is untouched. -/
theorem check_url_empty_diff_no_writes_witness :
    check_url (Database.mk [] 1 [⟨1, "T1", "E1", true⟩]) ⟨1, 5, "u", "c"⟩
        (Except.ok [⟨"T1", "E1"⟩]) true
      = (Database.mk [] 1 [⟨1, "T1", "E1", true⟩], []) :=
  check_url_empty_diff_no_writes _ _ _ _ (by rw [get_new_slots_eq_filter]; decide)

/-- C5: a resource whose retrieval fails is skipped — same store state
and notifications as if it had not been in the sweep's working set at
all; every other resource, before or after it, is processed the same. -/
theorem check_all_urls_isolates_failure (db : Database)
    (pre post : List TrackedUrlRow) (tA : TrackedUrlRow)
    (sc : TrackedUrlRow → Except ScrapeError (List SlotInput))
    (nok : TrackedUrlRow → Bool) (e : ScrapeError)
    (h : sc tA = Except.error e) :
    check_all_urls db (pre ++ tA :: post) sc nok
      = check_all_urls db (pre ++ post) sc nok := by
  unfold check_all_urls
  rw [List.foldl_append, List.foldl_append, List.foldl_cons]
  congr 1
  simp [h, check_url]

/-- Witness for `check_all_urls_isolates_failure`: resource 1's scrape
fails, resource 2 is still processed and notified. -/
theorem check_all_urls_isolates_failure_witness :
    check_all_urls (Database.mk [⟨1, 5, "a", "A"⟩, ⟨2, 6, "b", "B"⟩] 3 [])
        [⟨1, 5, "a", "A"⟩, ⟨2, 6, "b", "B"⟩]
        (fun t => if t.id == 1 then Except.error (ScrapeError.needle "boom")
          else Except.ok [⟨"T1", "E1"⟩])
        (fun _ => true)
      = check_all_urls (Database.mk [⟨1, 5, "a", "A"⟩, ⟨2, 6, "b", "B"⟩] 3 [])
          [⟨2, 6, "b", "B"⟩]
          (fun t => if t.id == 1 then Except.error (ScrapeError.needle "boom")
            else Except.ok [⟨"T1", "E1"⟩])
          (fun _ => true) :=
  check_all_urls_isolates_failure _ [] [⟨2, 6, "b", "B"⟩] _ _ _
    (ScrapeError.needle "boom") rfl

/-- C6: a first `add_tracked_url` for a fresh `(user_id, url)` pair
returns the new surrogate id; repeating it returns `None`, leaves the
state untouched, and exactly one row carries the pair. -/
theorem add_tracked_url_unique_pair (db : Database) (u : Int) (url nm nm2 : String)
    (h : ∀ r ∈ db.tracked_urls, ¬(r.user_id = u ∧ r.url = url)) :
    (db.add_tracked_url u url nm).2 = some db.next_id
    ∧ ((db.add_tracked_url u url nm).1.add_tracked_url u url nm2).2 = none
    ∧ ((db.add_tracked_url u url nm).1.add_tracked_url u url nm2).1
        = (db.add_tracked_url u url nm).1
    ∧ (((db.add_tracked_url u url nm).1.add_tracked_url u url nm2).1.tracked_urls.filter
        (fun r => r.user_id == u && r.url == url)).length = 1 := by
  have hany : db.tracked_urls.any (fun r => r.user_id == u && r.url == url) = false := by
    rw [List.any_eq_false]
    intro r hr
    simpa using h r hr
  have hfil : db.tracked_urls.filter (fun r => r.user_id == u && r.url == url) = [] := by
    rw [List.filter_eq_nil_iff]
    intro r hr
    simpa using h r hr
  have h1 : db.add_tracked_url u url nm
      = ({ db with
            tracked_urls := db.tracked_urls ++ [⟨db.next_id, u, url, nm⟩],
            next_id := db.next_id + 1 },
         some db.next_id) := by
    simp [Database.add_tracked_url, hany]
  have hany2 : ((db.tracked_urls ++ ([⟨db.next_id, u, url, nm⟩] : List TrackedUrlRow)).any
      (fun r => r.user_id == u && r.url == url)) = true := by
    rw [List.any_append, hany]
    simp
  have h2 : (db.add_tracked_url u url nm).1.add_tracked_url u url nm2
      = ((db.add_tracked_url u url nm).1, none) := by
    rw [h1]
    simp [Database.add_tracked_url, hany2]
  refine ⟨by rw [h1], by rw [h2], by rw [h2], ?_⟩
  rw [h2, h1]
  simp [List.filter_append, hfil]

/-- Witness for `add_tracked_url_unique_pair` on the empty registry. -/
theorem add_tracked_url_unique_pair_witness :
    (Database.empty.add_tracked_url 7 "u" "c").2 = some 1
    ∧ ((Database.empty.add_tracked_url 7 "u" "c").1.add_tracked_url 7 "u" "d").2 = none
    ∧ ((Database.empty.add_tracked_url 7 "u" "c").1.add_tracked_url 7 "u" "d").1
        = (Database.empty.add_tracked_url 7 "u" "c").1
    ∧ (((Database.empty.add_tracked_url 7 "u" "c").1.add_tracked_url 7 "u" "d").1.tracked_urls.filter
        (fun r => r.user_id == 7 && r.url == "u")).length = 1 :=
  add_tracked_url_unique_pair Database.empty 7 "u" "c" "d" (by decide)

/-- C2 (amended): a failed notification call is swallowed inside
`send_new_slot_notification` and never reaches `check_url`, so the sweep
step still runs `mark_slots_notified`: the resulting store state is
identical to the success case, and every detected slot ends up persisted
with `is_notified = true` even though delivery failed. -/
theorem check_url_failed_notify_still_marks (db : Database) (t : TrackedUrlRow)
    (cur : List SlotInput) :
    (check_url db t (Except.ok cur) false).1 = (check_url db t (Except.ok cur) true).1
    ∧ ∀ s ∈ db.get_new_slots t.id cur,
        ∃ r ∈ (check_url db t (Except.ok cur) false).1.time_slots,
          r.tracked_url_id = t.id ∧ r.start_time = s.start_time ∧ r.is_notified = true := by
  constructor
  · simp only [check_url]
    split <;> rfl
  · intro s hs
    have hne : (db.get_new_slots t.id cur).isEmpty = false := by
      cases hh : db.get_new_slots t.id cur
      · rw [hh] at hs; cases hs
      · rfl
    have hck : (check_url db t (Except.ok cur) false).1
        = ((db.save_time_slots t.id (db.get_new_slots t.id cur) false).1.mark_slots_notified
            t.id ((db.get_new_slots t.id cur).map (fun s => s.start_time))) := by
      simp [check_url, hne]
    rw [hck]
    obtain ⟨r0, hr0, hid0, hst0, _hb0⟩ :=
      exists_key_after_save (db.get_new_slots t.id cur) db.time_slots s hs
    exact mark_sets_notified (List.mem_map_of_mem _ hs) ⟨r0, hr0, hid0, hst0⟩

/-- Witness for `check_url_failed_notify_still_marks`: one fresh slot,
notification fails, row still ends up `notified = true`. -/
theorem check_url_failed_notify_still_marks_witness :
    ∃ r ∈ (check_url Database.empty ⟨1, 5, "u", "c"⟩
        (Except.ok [⟨"T1", "E1"⟩]) false).1.time_slots,
      r.tracked_url_id = 1 ∧ r.start_time = "T1" ∧ r.is_notified = true :=
  (check_url_failed_notify_still_marks Database.empty ⟨1, 5, "u", "c"⟩ [⟨"T1", "E1"⟩]).2
    ⟨"T1", "E1"⟩ (by rw [get_new_slots_eq_filter]; decide)

/-- C2 counterexample: a sweep step whose notification call fails
(recorded event has `delivered = false`) still marks the persisted slot
`notified = true` — refuting the claim that the slots then remain with
`notified = false`. -/
theorem check_url_failed_notify_marks_anyway :
    (check_url Database.empty ⟨1, 5, "u", "c"⟩ (Except.ok [⟨"T1", "E1"⟩]) false).2
      = [⟨5, "c", "u", [⟨"T1", "E1"⟩], false⟩]
    ∧ (check_url Database.empty ⟨1, 5, "u", "c"⟩
        (Except.ok [⟨"T1", "E1"⟩]) false).1.time_slots
      = [⟨1, "T1", "E1", true⟩] := by
  have hnew : (Database.mk [] 1 []).get_new_slots 1 [⟨"T1", "E1"⟩]
      = [⟨"T1", "E1"⟩] := by
    rw [get_new_slots_eq_filter]; decide
  constructor <;>
    simp [check_url, hnew, Database.empty, Database.save_time_slots,
      insertOrReplaceSlot, Database.mark_slots_notified, List.contains]

/-- Replaying the same `INSERT OR REPLACE` sequence over its own result
reproduces that result. -/
theorem foldl_insertOrReplace_idem (i : Nat) (b : Bool) (ts : List TimeSlotRow)
    (slots : List SlotInput) :
    slots.foldl (insertOrReplaceSlot i b) (slots.foldl (insertOrReplaceSlot i b) ts)
      = slots.foldl (insertOrReplaceSlot i b) ts := by
  rw [foldl_insertOrReplace_eq i b (slots.foldl (insertOrReplaceSlot i b) ts) slots,
    foldl_insertOrReplace_eq i b ts slots]
  rw [List.filter_append, List.filter_filter]
  have h1 : ts.filter (fun r => !slotKeyHit i slots r && !slotKeyHit i slots r)
      = ts.filter (fun r => !slotKeyHit i slots r) := by
    apply List.filter_congr
    intro r _
    cases slotKeyHit i slots r <;> rfl
  have h2 : (slots.foldl (insertOrReplaceSlot i b) []).filter
      (fun r => !slotKeyHit i slots r) = [] := by
    rw [List.filter_eq_nil_iff]
    intro r hr
    rcases mem_foldl_insertOrReplace hr with h0 | ⟨s, hs, rfl⟩
    · cases h0
    · have hhit : slotKeyHit i slots ⟨i, s.start_time, s.end_time, b⟩ = true := by
        simp only [slotKeyHit, List.any_eq_true]
        exact ⟨s, hs, by simp⟩
      simp [hhit]
  rw [h1, h2, List.append_nil]

/-- C7: replaying `save_time_slots` with identical input leaves the
store state exactly as after the first call, and the
`(tracked_url_id, start_time)` uniqueness constraint is preserved. -/
theorem save_time_slots_idempotent (db : Database) (i : Nat) (slots : List SlotInput)
    (b : Bool) :
    ((db.save_time_slots i slots b).1.save_time_slots i slots b).1
        = (db.save_time_slots i slots b).1
    ∧ (db.slotsKeyUnique → (db.save_time_slots i slots b).1.slotsKeyUnique) := by
  constructor
  · show Database.mk _ _ _ = Database.mk _ _ _
    rw [Database.mk.injEq]
    exact ⟨rfl, rfl, foldl_insertOrReplace_idem i b db.time_slots slots⟩
  · intro h
    exact foldl_insertOrReplace_unique slots db.time_slots h

/-- Witness for `save_time_slots_idempotent` on a concrete store. -/
theorem save_time_slots_idempotent_witness :
    (((Database.mk [] 1 [⟨2, "X", "Y", true⟩]).save_time_slots 1
          [⟨"T1", "E1"⟩, ⟨"T2", "E2"⟩] false).1.save_time_slots 1
        [⟨"T1", "E1"⟩, ⟨"T2", "E2"⟩] false).1
      = ((Database.mk [] 1 [⟨2, "X", "Y", true⟩]).save_time_slots 1
          [⟨"T1", "E1"⟩, ⟨"T2", "E2"⟩] false).1
    ∧ ((Database.mk [] 1 [⟨2, "X", "Y", true⟩]).save_time_slots 1
        [⟨"T1", "E1"⟩, ⟨"T2", "E2"⟩] false).1.slotsKeyUnique :=
  ⟨(save_time_slots_idempotent (Database.mk [] 1 [⟨2, "X", "Y", true⟩]) 1
      [⟨"T1", "E1"⟩, ⟨"T2", "E2"⟩] false).1,
   (save_time_slots_idempotent (Database.mk [] 1 [⟨2, "X", "Y", true⟩]) 1
      [⟨"T1", "E1"⟩, ⟨"T2", "E2"⟩] false).2
     (by unfold Database.slotsKeyUnique; decide)⟩

/-- In a list of slots with pairwise-distinct start times, filtering on
one member's start time isolates exactly that member. -/
theorem filter_start_time_eq_singleton :
    ∀ {slots : List SlotInput},
      slots.Pairwise (fun a c => a.start_time ≠ c.start_time) →
      ∀ {s : SlotInput}, s ∈ slots →
        slots.filter (fun a => a.start_time == s.start_time) = [s] := by
  intro slots
  induction slots with
  | nil => intro _ s hs; cases hs
  | cons a l ih =>
    intro h s hs
    obtain ⟨hhead, htail⟩ := List.pairwise_cons.mp h
    rcases List.mem_cons.mp hs with rfl | hs'
    · have hl : l.filter (fun x => x.start_time == s.start_time) = [] := by
        rw [List.filter_eq_nil_iff]
        intro x hx
        simp [Ne.symm (hhead x hx)]
      simp [List.filter_cons, hl]
    · have ha : (a.start_time == s.start_time) = false := by
        simp [hhead s hs']
      simp [List.filter_cons, ha, ih htail hs']

/-- C8: each `INSERT OR REPLACE` statement leaves exactly one row with
the slot's `(tracked_url_id, start_time)` key, carrying the given
`end_time` and `is_notified` values — also when rows with that key
already existed; consequently, for input lists whose start times are
pairwise distinct, `save_time_slots` leaves for each input slot exactly
that row. -/
theorem save_time_slots_overwrites (db : Database) (i : Nat) (slots : List SlotInput)
    (b : Bool) :
    (∀ (ts : List TimeSlotRow) (s : SlotInput),
        (insertOrReplaceSlot i b ts s).filter
            (fun r => r.tracked_url_id == i && r.start_time == s.start_time)
          = [⟨i, s.start_time, s.end_time, b⟩])
    ∧ (slots.Pairwise (fun a c => a.start_time ≠ c.start_time) →
        ∀ s ∈ slots,
          (db.save_time_slots i slots b).1.time_slots.filter
              (fun r => r.tracked_url_id == i && r.start_time == s.start_time)
            = [⟨i, s.start_time, s.end_time, b⟩]) := by
  constructor
  · intro ts s
    unfold insertOrReplaceSlot
    rw [List.filter_append, List.filter_filter]
    have hz : ts.filter (fun r => (r.tracked_url_id == i && r.start_time == s.start_time)
        && !(r.tracked_url_id == i && r.start_time == s.start_time)) = [] := by
      rw [List.filter_eq_nil_iff]
      intro r _
      cases (r.tracked_url_id == i && r.start_time == s.start_time) <;> simp
    rw [hz, List.nil_append, List.filter_cons]
    simp
  intro h s hs
  show (slots.foldl (insertOrReplaceSlot i b) db.time_slots).filter _ = _
  rw [foldl_insertOrReplace_eq, foldl_insertOrReplace_nil_eq_map i b h,
    List.filter_append, List.filter_filter]
  have h1 : db.time_slots.filter
      (fun r => (r.tracked_url_id == i && r.start_time == s.start_time)
        && !slotKeyHit i slots r) = [] := by
    rw [List.filter_eq_nil_iff]
    intro r _
    cases hp : (r.tracked_url_id == i && r.start_time == s.start_time)
    · simp
    · have hhit : slotKeyHit i slots r = true := by
        simp only [slotKeyHit, List.any_eq_true]
        simp only [Bool.and_eq_true, beq_iff_eq] at hp
        exact ⟨s, hs, by simp [hp.1, hp.2]⟩
      simp [hhit]
  have h2 : (slots.map (fun s => (⟨i, s.start_time, s.end_time, b⟩ : TimeSlotRow))).filter
      (fun r => r.tracked_url_id == i && r.start_time == s.start_time)
      = [⟨i, s.start_time, s.end_time, b⟩] := by
    rw [List.filter_map]
    have hcomp : ((fun r : TimeSlotRow => r.tracked_url_id == i && r.start_time == s.start_time)
        ∘ (fun s : SlotInput => (⟨i, s.start_time, s.end_time, b⟩ : TimeSlotRow)))
        = (fun a : SlotInput => a.start_time == s.start_time) := by
      funext a
      simp [Function.comp]
    rw [hcomp, filter_start_time_eq_singleton h hs]
    rfl
  rw [h1, h2, List.nil_append]

/-- Witness for `save_time_slots_overwrites`: the stored row
`(1, "T1", "E1", notified)` is overwritten to `("T1", "E2", false)`. -/
theorem save_time_slots_overwrites_witness :
    ((Database.mk [] 1 [⟨1, "T1", "E1", true⟩]).save_time_slots 1
        [⟨"T1", "E2"⟩] false).1.time_slots.filter
        (fun r => r.tracked_url_id == 1 && r.start_time == "T1")
      = [⟨1, "T1", "E2", false⟩] :=
  (save_time_slots_overwrites (Database.mk [] 1 [⟨1, "T1", "E1", true⟩]) 1
    [⟨"T1", "E2"⟩] false).2 (List.pairwise_singleton _ _) ⟨"T1", "E2"⟩ (by decide)

/-- After persisting and marking the diff of a fetch with
pairwise-distinct start times, every fetched `(start_time, end_time)`
pair is present in the store. -/
theorem storedPair_after_sweep (db : Database) (i : Nat) (cur : List SlotInput)
    (h : cur.Pairwise (fun a c => a.start_time ≠ c.start_time))
    (s : SlotInput) (hscur : s ∈ cur) :
    storedPair
      ((db.save_time_slots i (db.get_new_slots i cur) false).1.mark_slots_notified
        i ((db.get_new_slots i cur).map (fun s => s.start_time)))
      i s.start_time s.end_time = true := by
  have hpnew : (db.get_new_slots i cur).Pairwise
      (fun a c => a.start_time ≠ c.start_time) := by
    rw [get_new_slots_eq_filter]
    exact h.filter _
  have hsave : (db.save_time_slots i (db.get_new_slots i cur) false).1.time_slots
      = db.time_slots.filter (fun r => !slotKeyHit i (db.get_new_slots i cur) r)
        ++ (db.get_new_slots i cur).map
            (fun s => ⟨i, s.start_time, s.end_time, false⟩) := by
    show (db.get_new_slots i cur).foldl (insertOrReplaceSlot i false) db.time_slots = _
    rw [foldl_insertOrReplace_eq, foldl_insertOrReplace_nil_eq_map i false hpnew]
  apply storedPair_iff.mpr
  apply exists_row_mark
  by_cases hsn : s ∈ db.get_new_slots i cur
  · refine ⟨⟨i, s.start_time, s.end_time, false⟩, ?_, rfl, rfl, rfl⟩
    rw [hsave]
    exact List.mem_append_right _ (List.mem_map_of_mem _ hsn)
  · have hsp : storedPair db i s.start_time s.end_time = true := by
      cases hq : storedPair db i s.start_time s.end_time
      · exfalso
        apply hsn
        rw [get_new_slots_eq_filter]
        exact List.mem_filter.mpr ⟨hscur, by simp [hq]⟩
      · rfl
    obtain ⟨r, hr, hid, hst, het⟩ := storedPair_iff.mp hsp
    have hkh : slotKeyHit i (db.get_new_slots i cur) r = false := by
      cases hkb : slotKeyHit i (db.get_new_slots i cur) r
      · rfl
      · exfalso
        obtain ⟨s2, hs2, hs2b⟩ := List.any_eq_true.mp hkb
        simp only [Bool.and_eq_true, beq_iff_eq] at hs2b
        have hs2cur : s2 ∈ cur := by
          rw [get_new_slots_eq_filter] at hs2
          exact (List.mem_filter.mp hs2).1
        have hss : s.start_time = s2.start_time := by
          rw [← hst, hs2b.2]
        have hseq : s = s2 := by
          by_contra hne
          exact List.Pairwise.forall (fun x y hxy => hxy.symm) h hscur hs2cur hne hss
        exact hsn (hseq ▸ hs2)
    refine ⟨r, ?_, hid, hst, het⟩
    rw [hsave]
    exact List.mem_append_left _ (List.mem_filter.mpr ⟨hr, by simp [hkh]⟩)

/-- C4 (amended): provided the fetched list has pairwise-distinct start
times, a completed sweep step (detect, persist, notify, mark) makes a
repeat sweep with the same fetched list detect zero new or changed
slots. -/
theorem check_url_no_redetect (db : Database) (t : TrackedUrlRow) (cur : List SlotInput)
    (ok : Bool)
    (h : cur.Pairwise (fun a c => a.start_time ≠ c.start_time)) :
    ((check_url db t (Except.ok cur) ok).1).get_new_slots t.id cur = [] := by
  by_cases hemp : (db.get_new_slots t.id cur).isEmpty = true
  · have hnil : db.get_new_slots t.id cur = [] := List.isEmpty_iff.mp hemp
    have hck : (check_url db t (Except.ok cur) ok).1 = db := by
      simp [check_url, hemp]
    rw [hck, hnil]
  · have hemp' : (db.get_new_slots t.id cur).isEmpty = false := by
      cases hb : (db.get_new_slots t.id cur).isEmpty
      · rfl
      · exact absurd hb hemp
    have hck : (check_url db t (Except.ok cur) ok).1
        = ((db.save_time_slots t.id (db.get_new_slots t.id cur) false).1.mark_slots_notified
            t.id ((db.get_new_slots t.id cur).map (fun s => s.start_time))) := by
      simp [check_url, hemp']
    rw [hck, get_new_slots_eq_filter, List.filter_eq_nil_iff]
    intro s hscur
    simp [storedPair_after_sweep db t.id cur h s hscur]

/-- Witness for `check_url_no_redetect`: the regression scenario —
stored `("T1", "E1")`, fetch `[("T1", "E2")]`; after the sweep step a
repeat fetch detects nothing. -/
theorem check_url_no_redetect_witness :
    ((check_url (Database.mk [] 1 [⟨1, "T1", "E1", true⟩]) ⟨1, 5, "u", "c"⟩
        (Except.ok [⟨"T1", "E2"⟩]) true).1).get_new_slots 1 [⟨"T1", "E2"⟩] = [] :=
  check_url_no_redetect (Database.mk [] 1 [⟨1, "T1", "E1", true⟩]) ⟨1, 5, "u", "c"⟩
    [⟨"T1", "E2"⟩] true (List.pairwise_singleton _ _)

/-- C4 counterexample: a fetched list repeating a start time defeats the
claim as stated.  From an empty store, a sweep over
`[("T1","E2"), ("T1","E3")]` detects and notifies both, but
`INSERT OR REPLACE` keeps only the last row per `(resource, start)` key,
so the very next sweep with the identical fetched list re-detects
`("T1","E2")` — not zero slots. -/
theorem check_url_redetects_on_duplicate_start :
    (check_url (Database.mk [⟨1, 5, "u", "c"⟩] 2 []) ⟨1, 5, "u", "c"⟩
        (Except.ok [⟨"T1", "E2"⟩, ⟨"T1", "E3"⟩]) true).2
      = [⟨5, "c", "u", [⟨"T1", "E2"⟩, ⟨"T1", "E3"⟩], true⟩]
    ∧ ((check_url (Database.mk [⟨1, 5, "u", "c"⟩] 2 []) ⟨1, 5, "u", "c"⟩
        (Except.ok [⟨"T1", "E2"⟩, ⟨"T1", "E3"⟩]) true).1).get_new_slots 1
        [⟨"T1", "E2"⟩, ⟨"T1", "E3"⟩]
      = [⟨"T1", "E2"⟩] := by
  have hnew : (Database.mk [⟨1, 5, "u", "c"⟩] 2 []).get_new_slots 1
      [⟨"T1", "E2"⟩, ⟨"T1", "E3"⟩] = [⟨"T1", "E2"⟩, ⟨"T1", "E3"⟩] := by
    rw [get_new_slots_eq_filter]; decide
  have hck : check_url (Database.mk [⟨1, 5, "u", "c"⟩] 2 []) ⟨1, 5, "u", "c"⟩
      (Except.ok [⟨"T1", "E2"⟩, ⟨"T1", "E3"⟩]) true
      = (Database.mk [⟨1, 5, "u", "c"⟩] 2 [⟨1, "T1", "E3", true⟩],
         [⟨5, "c", "u", [⟨"T1", "E2"⟩, ⟨"T1", "E3"⟩], true⟩]) := by
    simp [check_url, hnew, Database.save_time_slots, insertOrReplaceSlot,
      Database.mark_slots_notified, List.contains]
  rw [hck]
  refine ⟨rfl, ?_⟩
  rw [get_new_slots_eq_filter]
  decide

/-- C3: `remove_tracked_url` reports whether a registry row existed and
deletes it, but the slot rows survive the removal: the sqlite3
connection never issues `PRAGMA foreign_keys = ON`, so the schema's
`ON DELETE CASCADE` never fires and `get_time_slots` on the removed
resource id still returns its rows. -/
theorem remove_tracked_url_leaves_slot_rows :
    (Database.empty.remove_tracked_url 1 "u").2 = false
    ∧ ((((Database.empty.add_tracked_url 1 "u" "c").1.save_time_slots 1
          [⟨"T1", "E1"⟩] true).1).remove_tracked_url 1 "u").2 = true
    ∧ ((((Database.empty.add_tracked_url 1 "u" "c").1.save_time_slots 1
          [⟨"T1", "E1"⟩] true).1).remove_tracked_url 1 "u").1.tracked_urls = []
    ∧ ((((Database.empty.add_tracked_url 1 "u" "c").1.save_time_slots 1
          [⟨"T1", "E1"⟩] true).1).remove_tracked_url 1 "u").1.get_time_slots 1
        = [⟨1, "T1", "E1", true⟩] := by
  have hdb : ((((Database.empty.add_tracked_url 1 "u" "c").1.save_time_slots 1
      [⟨"T1", "E1"⟩] true).1).remove_tracked_url 1 "u").1
      = Database.mk [] 2 [⟨1, "T1", "E1", true⟩] := by decide
  refine ⟨by decide, by decide, ?_, ?_⟩
  · rw [hdb]
  · rw [hdb]
    unfold Database.get_time_slots
    rw [show (Database.mk [] 2 [⟨1, "T1", "E1", true⟩]).time_slots.filter
        (fun r => r.tracked_url_id == 1) = [⟨1, "T1", "E1", true⟩] from by decide]
    exact List.mergeSort_singleton _

/-- `getD` under a `map`, inside bounds. -/
theorem getD_map_of_lt {α β : Type} (f : α → β) (l : List α) (k : Nat)
    (hk : k < l.length) (d : β) (d2 : α) :
    (l.map f).getD k d = f (l.getD k d2) := by
  rw [List.getD_eq_getElem?_getD, List.getD_eq_getElem?_getD, List.getElem?_map,
    List.getElem?_eq_getElem hk]
  rfl

/-- C10: `mark_slots_notified` flips `is_notified` to `true` exactly on
the rows matching the resource id and one of the given start times, is
a complete no-op on empty input, and alters no key column, no
`end_time`, no row of any other resource, and nothing outside the
`time_slots` table. -/
theorem mark_slots_notified_frame (db : Database) (i : Nat) (sts : List String) :
    (db.mark_slots_notified i sts).tracked_urls = db.tracked_urls
    ∧ (db.mark_slots_notified i sts).next_id = db.next_id
    ∧ (sts = [] → db.mark_slots_notified i sts = db)
    ∧ (db.mark_slots_notified i sts).time_slots.length = db.time_slots.length
    ∧ ∀ k : Nat, k < db.time_slots.length →
        ((db.mark_slots_notified i sts).time_slots.getD k ⟨0, "", "", false⟩).tracked_url_id
            = (db.time_slots.getD k ⟨0, "", "", false⟩).tracked_url_id
        ∧ ((db.mark_slots_notified i sts).time_slots.getD k ⟨0, "", "", false⟩).start_time
            = (db.time_slots.getD k ⟨0, "", "", false⟩).start_time
        ∧ ((db.mark_slots_notified i sts).time_slots.getD k ⟨0, "", "", false⟩).end_time
            = (db.time_slots.getD k ⟨0, "", "", false⟩).end_time
        ∧ ((db.mark_slots_notified i sts).time_slots.getD k ⟨0, "", "", false⟩).is_notified
            = (if (db.time_slots.getD k ⟨0, "", "", false⟩).tracked_url_id = i
                  ∧ (db.time_slots.getD k ⟨0, "", "", false⟩).start_time ∈ sts
               then true
               else (db.time_slots.getD k ⟨0, "", "", false⟩).is_notified) := by
  cases sts with
  | nil =>
    refine ⟨rfl, rfl, fun _ => rfl, rfl, ?_⟩
    intro k _
    refine ⟨rfl, rfl, rfl, ?_⟩
    have hnc : ¬((db.time_slots.getD k ⟨0, "", "", false⟩).tracked_url_id = i
        ∧ (db.time_slots.getD k ⟨0, "", "", false⟩).start_time ∈ ([] : List String)) :=
      fun hcon => List.not_mem_nil _ hcon.2
    rw [if_neg hnc]
    rfl
  | cons st0 sts2 =>
    refine ⟨rfl, rfl, fun hcon => absurd hcon (by simp), ?_, ?_⟩
    · show (db.time_slots.map _).length = _
      exact List.length_map _ _
    · intro k hk
      have hr : (db.mark_slots_notified i (st0 :: sts2)).time_slots.getD k
          ⟨0, "", "", false⟩
          = (fun r : TimeSlotRow =>
              if r.tracked_url_id == i && (st0 :: sts2).contains r.start_time then
                { r with is_notified := true }
              else r) (db.time_slots.getD k ⟨0, "", "", false⟩) := by
        show (db.time_slots.map _).getD k _ = _
        exact getD_map_of_lt _ db.time_slots k hk _ _
      rw [hr]
      generalize db.time_slots.getD k ⟨0, "", "", false⟩ = r
      beta_reduce
      by_cases hp : r.tracked_url_id = i ∧ r.start_time ∈ (st0 :: sts2)
      · have hb : (r.tracked_url_id == i && (st0 :: sts2).contains r.start_time) = true := by
          simp [hp.1, hp.2]
        rw [if_pos hb, if_pos hp]
        exact ⟨rfl, rfl, rfl, rfl⟩
      · have hb : ¬((r.tracked_url_id == i && (st0 :: sts2).contains r.start_time) = true) := by
          intro hb2
          simp only [Bool.and_eq_true, beq_iff_eq] at hb2
          exact hp ⟨hb2.1, by simpa using hb2.2⟩
        rw [if_neg hb, if_neg hp]
        exact ⟨rfl, rfl, rfl, rfl⟩

/-- Witness for `mark_slots_notified_frame`: empty input is a no-op,
and a matching row gets `is_notified = true`. -/
theorem mark_slots_notified_frame_witness :
    (Database.mk [] 7 [⟨1, "a", "b", false⟩]).mark_slots_notified 7 []
        = Database.mk [] 7 [⟨1, "a", "b", false⟩]
    ∧ (((Database.mk [] 7 [⟨1, "a", "b", false⟩]).mark_slots_notified 1
          ["a"]).time_slots.getD 0 ⟨0, "", "", false⟩).is_notified = true := by
  constructor
  · exact (mark_slots_notified_frame (Database.mk [] 7 [⟨1, "a", "b", false⟩]) 7 []).2.2.1 rfl
  · have h := ((mark_slots_notified_frame (Database.mk [] 7 [⟨1, "a", "b", false⟩]) 1
      ["a"]).2.2.2.2 0 (by decide)).2.2.2
    rw [h]
    decide
